import Mathlib

/-!
Shallow embedding of the analytics core of the bizgptai repository
(src/utils/dataProcessor.ts, src/services/voiceService.ts,
src/services/nlqService.ts) and proofs about the claims of its
specification.

Modelling conventions:
  * JavaScript numbers are modelled by exact rationals (ℚ).  All claims
    settled here concern sign, ordering and structural properties that are
    robust under this idealisation; `x.toFixed(2)` / `parseFloat` pairs are
    modelled by rounding to two decimals (ECMAScript toFixed picks the
    larger candidate on ties, i.e. round-half-up, which is Mathlib round).
  * A cell of a row is one of null / string / number / boolean
    (`Cell`); a JS object row is an association list in key-insertion
    order, which is exactly the information `JSON.stringify` serialises,
    so structural row equality is list equality.
  * `Number(x)` is `jsToNumber : Option Cell → Option ℚ` where `none`
    models NaN (and a missing property, i.e. `undefined`, also maps to
    NaN).  Only decimal numerals are given semantics; every other string
    is NaN, as in the source's data domain (CSV cells).
  * `Date.parse` / `new Date(string)` on user-supplied strings is
    environment dependent; functions needing it take an explicit
    parameter (`dateOk : String → Bool` for parse success,
    `dp : String → ℤ` for the parsed epoch milliseconds).
  * `Date.now()` is an explicit `now : ℤ` (epoch ms) parameter of the
    functions that read the clock.
  * Calendar dates produced through `toISOString` are represented by the
    injective epoch quantities they print: a synthesized timestamp by its
    millisecond value, a prediction date by its UTC day number.
-/

namespace BizGPT

/-- A scalar cell of a row: the JS values occurring in the data pipeline. -/
inductive Cell where
  | null : Cell
  | str (s : String) : Cell
  | num (q : ℚ) : Cell
  | boolean (b : Bool) : Cell
deriving DecidableEq, Repr

/-- A row: a JS object in key-insertion order. -/
abbrev Row := List (String × Cell)

/-- `row[k]`: property access; `none` models `undefined`. -/
def getCell (r : Row) (k : String) : Option Cell :=
  (r.find? (fun p => p.1 == k)).map (·.2)

/-- `row[k] = v`: property assignment.  Overwrites an existing key in
place, otherwise appends the key at the end (JS insertion order). -/
def setCell (r : Row) (k : String) (v : Cell) : Row :=
  if (r.find? (fun p => p.1 == k)).isSome then
    r.map (fun p => if p.1 == k then (k, v) else p)
  else r ++ [(k, v)]

/-- Digits of a natural-number numeral. -/
def parseNatDigits (cs : List Char) : Option ℕ :=
  if cs ≠ [] ∧ cs.all Char.isDigit then
    some (cs.foldl (fun a c => a * 10 + (c.toNat - 48)) 0)
  else none

/-- Decimal numeral, possibly signed, possibly with a fractional part
("5", "-5", "5.25", "5.", ".25").  `none` models NaN. -/
def parseDecimal (cs : List Char) : Option ℚ :=
  let core : List Char → Option ℚ := fun ds =>
    match ds.splitOn '.' with
    | [ip] => (parseNatDigits ip).map (fun n => (n : ℚ))
    | [ip, fp] =>
      if ip = [] ∧ fp = [] then none
      else
        let ipv : Option ℚ := if ip = [] then some 0 else (parseNatDigits ip).map (fun n => (n : ℚ))
        let fpv : Option ℚ :=
          if fp = [] then some 0
          else (parseNatDigits fp).map (fun n => (n : ℚ) / ((10 : ℚ) ^ fp.length))
        match ipv, fpv with
        | some a, some b => some (a + b)
        | _, _ => none
    | _ => none
  match cs with
  | '-' :: rest => (core rest).map (fun q => -q)
  | '+' :: rest => core rest
  | _ => core cs

/-- A whitespace character as trimmed by `Number(string)`. -/
def isSpaceChar (c : Char) : Bool := c = ' ' ∨ c = '\t' ∨ c = '\n' ∨ c = '\r'

/-- Trim leading and trailing whitespace. -/
def trimChars (cs : List Char) : List Char :=
  ((cs.dropWhile isSpaceChar).reverse.dropWhile isSpaceChar).reverse

/-- `Number(string)`: whitespace-trimmed; the empty string is 0; decimal
numerals get their value; everything else is NaN (`none`). -/
def jsStringToNumber (s : String) : Option ℚ :=
  let t := trimChars s.toList
  if t = [] then some 0 else parseDecimal t

/-- `Number(x)` for a possibly-missing cell.  `none` models NaN:
`Number(undefined)` is NaN, `Number(null)` is 0, booleans are 0/1. -/
def jsToNumber : Option Cell → Option ℚ
  | none => none
  | some Cell.null => some 0
  | some (Cell.str s) => jsStringToNumber s
  | some (Cell.num q) => some q
  | some (Cell.boolean b) => some (if b then 1 else 0)

/-- `Number(x) || 0`: NaN (and 0 itself) collapse to 0. -/
def numOr0 (c : Option Cell) : ℚ := (jsToNumber c).getD 0

/-- JS truthiness of a possibly-missing cell value. -/
def truthy : Option Cell → Bool
  | none => false
  | some Cell.null => false
  | some (Cell.str s) => s ≠ ""
  | some (Cell.num q) => q ≠ 0
  | some (Cell.boolean b) => b

/-- JS falsiness of a (present) cell value. -/
def jsFalsy (c : Cell) : Bool := !(truthy (some c))

/-- `parseFloat(x.toFixed(2))`: round to two decimal places.  ECMAScript
toFixed resolves ties by picking the larger candidate, i.e. rounds half
towards +∞, which is exactly Mathlib's `round`. -/
def round2 (q : ℚ) : ℚ := (round (q * 100) : ℚ) / 100

/-- `parseFloat(x.toFixed(3))`: round to three decimal places. -/
def round3 (q : ℚ) : ℚ := (round (q * 1000) : ℚ) / 1000

/-- Minimum of a list, `Math.min(...values)` for a non-empty list
(the `[]` case is never exercised by the guarded call sites). -/
def listMin : List ℚ → ℚ
  | [] => 0
  | x :: xs => xs.foldl min x

/-- Maximum of a list, `Math.max(...values)` for a non-empty list. -/
def listMax : List ℚ → ℚ
  | [] => 0
  | x :: xs => xs.foldl max x

/-- First-occurrence deduplication with an accumulated set of already
seen elements; models the `Set`-based loop of `removeDuplicates`
(`JSON.stringify` is injective on our cell values, so membership in the
string set is membership in the list). -/
def dedupGo [DecidableEq α] (seen : List α) : List α → List α
  | [] => []
  | a :: rest => if a ∈ seen then dedupGo seen rest else a :: dedupGo (a :: seen) rest

/-! ## dataProcessor.ts -/

/-- Column type enumeration of `DataColumn`. -/
inductive ColType where
  | string : ColType
  | number : ColType
  | date : ColType
  | boolean : ColType
deriving DecidableEq, Repr

/-- `DataColumn` of src/types. -/
structure DataColumn where
  name : String
  type : ColType
  nullable : Bool
  unique_count : ℕ
deriving DecidableEq, Repr

/-- `detectColumnType(values)`.  `dateOk` models the environment's
`!isNaN(Date.parse(v))` test on the string form of a value (only reached
for values that are neither all-numeric nor all-boolean-literals).
A cell is "non-null" here when it is not null, not undefined and not the
empty string.  Note the numeric test is `!isNaN(Number(v))`, so actual
booleans also pass it (Number(true) = 1), exactly as in the source. -/
def detectColumnType (dateOk : String → Bool) (values : List (Option Cell)) : ColType :=
  let nonNullValues := values.filter fun v =>
    v ≠ none ∧ v ≠ some Cell.null ∧ v ≠ some (Cell.str "")
  if nonNullValues = [] then ColType.string
  else if nonNullValues.all (fun v => (jsToNumber v).isSome) then ColType.number
  else if nonNullValues.all (fun v =>
      v = some (Cell.boolean true) ∨ v = some (Cell.boolean false) ∨
      v = some (Cell.str "true") ∨ v = some (Cell.str "false") ∨
      v = some (Cell.str "0") ∨ v = some (Cell.str "1")) then ColType.boolean
  else if nonNullValues.all (fun v =>
      match v with
      | some (Cell.str s) => dateOk s
      | some (Cell.num _) => true
      | some (Cell.boolean _) => false
      | _ => false) then ColType.date
  else ColType.string

/-- `cleanData(data)`: canonicalise null/undefined/'' cells to null.
(A JS object has no undefined-valued own entries after JSON round trips,
so only null and '' occur here.) -/
def cleanData (data : List Row) : List Row :=
  data.map fun row =>
    row.map fun kv =>
      if kv.2 = Cell.null ∨ kv.2 = Cell.str "" then (kv.1, Cell.null) else kv

/-- `removeDuplicates(data)`: structural, order-stable, first occurrence
wins. -/
def removeDuplicates (data : List Row) : List Row := dedupGo [] data

/-- The non-null values of a column used by `fillMissingValues`:
`filled.map(row => row[column.name]).filter(v => v !== null && v !== undefined)`. -/
def fillValues (rows : List Row) (name : String) : List Cell :=
  (rows.filterMap fun r => getCell r name).filter (fun v => v ≠ Cell.null)

/-- One pass of `fillMissingValues` over a single column:
number columns get nulls (and missing keys) filled with the mean of the
present values, string columns with the statistical mode (ascending
stable frequency sort, then `pop()`; a falsy mode collapses to `''` via
`mode || ''`); date/boolean columns are untouched. -/
def fillColumn (filled : List Row) (column : DataColumn) : List Row :=
  let values := fillValues filled column.name
  if values.length = 0 then filled
  else if column.type = ColType.number then
    let avg := (values.map fun v => (jsToNumber (some v)).getD 0).sum / values.length
    filled.map fun row =>
      if getCell row column.name = some Cell.null ∨ getCell row column.name = none then
        setCell row column.name (Cell.num avg)
      else row
  else if column.type = ColType.string then
    let sorted := List.insertionSort (fun a b => values.count a ≤ values.count b) values
    let mode := sorted.getLast?
    let fillVal :=
      match mode with
      | some m => if jsFalsy m then Cell.str "" else m
      | none => Cell.str ""
    filled.map fun row =>
      if getCell row column.name = some Cell.null ∨ getCell row column.name = none then
        setCell row column.name fillVal
      else row
  else filled

/-- `fillMissingValues(data, columns)`: sequential per-column imputation. -/
def fillMissingValues (data : List Row) (columns : List DataColumn) : List Row :=
  columns.foldl fillColumn data

/-- Number of rows whose cell at `name` is null or undefined
(the `missingValues` loop body). -/
def countNullsIn (rows : List Row) (name : String) : ℕ :=
  (rows.filter fun row =>
    getCell row name = some Cell.null ∨ getCell row name = none).length

/-- Dataset summary of `ProcessedData`. -/
structure Summary where
  total_rows : ℕ
  total_columns : ℕ
  missing_values : List (String × ℕ)
  duplicates : ℕ
deriving DecidableEq, Repr

/-- `ProcessedData` of dataProcessor.ts. -/
structure ProcessedData where
  columns : List DataColumn
  rows : List Row
  summary : Summary
deriving DecidableEq, Repr

/-- The `columns` construction inside `processDataset`: one
`DataColumn` per key of the first deduplicated row
(`Object.keys(unique[0])`; the head lookup is total here via `head?`,
the empty case being unreachable because `unique` is nonempty whenever
the input is). -/
def mkColumns (dateOk : String → Bool) (unique : List Row) : List DataColumn :=
  ((unique.head?.getD []).map (·.1)).map fun name =>
    let values := unique.map fun row => getCell row name
    let type := detectColumnType dateOk values
    let nonNullValues := values.filter fun v => v ≠ some Cell.null ∧ v ≠ none
    { name := name
      type := type
      nullable := nonNullValues.length < unique.length
      unique_count := (dedupGo [] nonNullValues).length }

/-- The `missingValues` construction inside `processDataset`: per-column
null counts over the cleaned (NOT deduplicated) rows, with entries only
for columns having at least one null. -/
def mkMissingValues (columns : List DataColumn) (cleaned : List Row) : List (String × ℕ) :=
  columns.filterMap fun column =>
    let nullCount := countNullsIn cleaned column.name
    if nullCount > 0 then some (column.name, nullCount) else none

/-- `processDataset(rawData)`; `none` models the thrown
`Error('No data to process')` on empty input. -/
def processDataset (dateOk : String → Bool) (rawData : List Row) : Option ProcessedData :=
  if rawData.length = 0 then none
  else
    let cleaned := cleanData rawData
    let unique := removeDuplicates cleaned
    let columns := mkColumns dateOk unique
    let filled := fillMissingValues unique columns
    some
      { columns := columns
        rows := filled
        summary :=
          { total_rows := filled.length
            total_columns := columns.length
            missing_values := mkMissingValues columns cleaned
            duplicates := rawData.length - unique.length } }

/-- The numeric values of a column as read by `generateStatistics` and
`calculateKPIs`: `data.map(row => Number(row[name])).filter(v => !isNaN(v))`. -/
def numericValues (data : List Row) (name : String) : List ℚ :=
  data.filterMap fun row => jsToNumber (getCell row name)

/-- Per-column statistics of `generateStatistics`.  The source emits
`mean`, `median` and `std_dev` as `toFixed(2)` strings; `mean` and
`median` here hold the numeric content of those strings (`round2` of the
raw value).  `std_dev` is a square root, hence irrational in general and
not representable in the rational model; no claim concerns it and it is
omitted. -/
structure Stats where
  count : ℕ
  mean : ℚ
  median : ℚ
  min : ℚ
  max : ℚ
  q1 : ℚ
  q3 : ℚ
deriving DecidableEq, Repr

/-- `generateStatistics(data, columns)`: statistics for numeric columns
with at least one numeric value; other columns are omitted from the
result map.  `Math.floor(n * 0.25)`, `Math.floor(n * 0.5)` and
`Math.floor(n * 0.75)` are exact in binary floating point, i.e.
`n / 4`, `n / 2` and `3 * n / 4` in natural division. -/
def generateStatistics (data : List Row) (columns : List DataColumn) :
    List (String × Stats) :=
  columns.filterMap fun column =>
    if column.type = ColType.number then
      let values := numericValues data column.name
      if values.length > 0 then
        let sorted := List.insertionSort (· ≤ ·) values
        let mean := values.sum / values.length
        some (column.name,
          { count := values.length
            mean := round2 mean
            median := round2 (sorted.getD (sorted.length / 2) 0)
            min := listMin values
            max := listMax values
            q1 := sorted.getD (sorted.length / 4) 0
            q3 := sorted.getD (3 * sorted.length / 4) 0 })
      else none
    else none

/-! ## nlqService.ts — executeQuery -/

/-- Case-insensitive character equality (ASCII toLowerCase). -/
def ciEq (a b : Char) : Bool := a.toLower == b.toLower

/-- Case-insensitive list-prefix test. -/
def ciPrefixOf : List Char → List Char → Bool
  | [], _ => true
  | _ :: _, [] => false
  | a :: as, b :: bs => ciEq a b && ciPrefixOf as bs

/-- `lowerSQL.includes(needle)` for an all-lowercase needle, i.e.
case-insensitive substring containment. -/
def ciContains (needle : List Char) : List Char → Bool
  | [] => needle.isEmpty
  | c :: rest => ciPrefixOf needle (c :: rest) || ciContains needle rest

/-- A `\w` character: `[A-Za-z0-9_]`. -/
def isWordChar (c : Char) : Bool :=
  (('a' ≤ c && c ≤ 'z') || ('A' ≤ c && c ≤ 'Z') || ('0' ≤ c && c ≤ '9') || c = '_')

/-- `sql.match(/needle(\w+)suffix/i)`: scan left to right for the first
position where `needle` matches case-insensitively, followed by a
non-empty `\w+` run, followed by `suffix`; return the word (with its
original case, as a regex capture does).  On failure at a position the
scan resumes one character later, as regex searching does. -/
def scanCapture (needle suffix : List Char) : List Char → Option (List Char)
  | [] => none
  | c :: rest =>
    if ciPrefixOf needle (c :: rest) then
      let after := (c :: rest).drop needle.length
      let w := after.takeWhile isWordChar
      if w ≠ [] ∧ ciPrefixOf suffix (after.drop w.length) then some w
      else scanCapture needle suffix rest
    else scanCapture needle suffix rest

/-- Fuel-bounded decimal expansion of the fractional part of a
nonnegative rational (exact for terminating decimals, which is all the
claims exercise). -/
def fracDigitChars : ℕ → ℚ → List Char
  | 0, _ => []
  | fuel + 1, q =>
    if q = 0 then []
    else
      let q10 := q * 10
      let d := (⌊q10⌋ : ℤ).toNat
      Char.ofNat (48 + d) :: fracDigitChars fuel (q10 - d)

/-- Decimal string of a rational, JS-number style (integers without a
decimal point); used for the property-key coercion `grouped[key]`, where
JS stringifies the key. -/
def ratDecimalStr (q : ℚ) : String :=
  if q.den = 1 then toString q.num
  else
    let sign := if q < 0 then "-" else ""
    let a := |q|
    let ip := (⌊a⌋ : ℤ).toNat
    sign ++ toString ip ++ "." ++ String.mk (fracDigitChars 20 (a - ip))

/-- Property-key coercion of a cell. -/
def cellKeyStr : Option Cell → String
  | none => "undefined"
  | some Cell.null => "null"
  | some (Cell.str s) => s
  | some (Cell.num q) => ratDecimalStr q
  | some (Cell.boolean b) => if b then "true" else "false"

/-- `avg.toFixed(2)` as the emitted string. -/
def toFixed2Str (q : ℚ) : String :=
  let n := round (q * 100)
  let a := n.natAbs
  let sign := if n < 0 then "-" else ""
  sign ++ toString (a / 100) ++ "." ++ (if a % 100 < 10 then "0" else "") ++ toString (a % 100)

/-- `grouped[key] = (grouped[key] || 0) + v` over an insertion-ordered
object. -/
def updateGroup : List (String × ℚ) → String → ℚ → List (String × ℚ)
  | [], k, v => [(k, v)]
  | (k', v') :: rest, k, v =>
    if k' = k then (k', v' + v) :: rest else (k', v') :: updateGroup rest k v

/-- `executeQuery(sql, data)` of src/services/nlqService.ts.  The branch
chain is modelled exactly: a branch whose guard holds but whose regex
capture fails falls through to the next branch, and the final default is
`data.slice(0, 100)` (the backend copy differs only in capping the
default at 10).  JS `Array.prototype.sort` with a numeric-difference
comparator is a stable sort by that key, which is `List.insertionSort`
on the corresponding `≤`. -/
def executeQuery (sql : String) (data : List Row) : List Row :=
  let cs := sql.toList
  if ciContains "select count(*)".toList cs then
    [[("total_count", Cell.num (data.length : ℚ))]]
  else
    match (if ciContains "avg(".toList cs ∨ ciContains "average".toList cs then
            scanCapture "avg(".toList ")".toList cs else none) with
    | some col =>
      let column := String.mk col
      let values := data.filterMap fun row => jsToNumber (getCell row column)
      let avg := values.sum / values.length
      [[("average_" ++ column, Cell.str (toFixed2Str avg))]]
    | none =>
    match (if ciContains "sum(".toList cs then
            scanCapture "sum(".toList ")".toList cs else none) with
    | some col =>
      let column := String.mk col
      let sum := data.foldl (fun total row => total + numOr0 (getCell row column)) 0
      [[("total_" ++ column, Cell.num sum)]]
    | none =>
    match (if ciContains "group by".toList cs then
            match scanCapture "group by ".toList [] cs,
                  scanCapture "sum(".toList ")".toList cs with
            | some g, some s => some (g, s)
            | _, _ => none
          else none) with
    | some (g, s) =>
      let groupCol := String.mk g
      let sumCol := String.mk s
      let grouped := data.foldl (fun acc row =>
        updateGroup acc (cellKeyStr (getCell row groupCol)) (numOr0 (getCell row sumCol))) []
      let mapped : List Row := grouped.map fun kv => [(groupCol, Cell.str kv.1), ("total", Cell.num kv.2)]
      (List.insertionSort
        (fun a b => numOr0 (getCell b "total") ≤ numOr0 (getCell a "total")) mapped).take 20
    | none =>
    match (if ciContains "order by".toList cs ∧ ciContains "desc".toList cs then
            scanCapture "order by ".toList " desc".toList cs else none) with
    | some col =>
      let column := String.mk col
      (List.insertionSort
        (fun a b => numOr0 (getCell b column) ≤ numOr0 (getCell a column)) data).take 10
    | none =>
    match (if ciContains "order by".toList cs ∧ ciContains "asc".toList cs then
            scanCapture "order by ".toList " asc".toList cs else none) with
    | some col =>
      let column := String.mk col
      (List.insertionSort
        (fun a b => numOr0 (getCell a column) ≤ numOr0 (getCell b column)) data).take 10
    | none => data.take 100

/-! ## voiceService.ts — forecasting, anomalies, KPIs -/

/-- A timestamp value as carried through the pipelines: either the cell
found in the row's `date`/`timestamp` property (left), or the synthetic
back-dated `new Date(now - k*86400000).toISOString()` string,
represented by its millisecond value, into which `toISOString` is
injective (right). -/
abbrev TSVal := Cell ⊕ ℤ

/-- A point of the derived time series. -/
structure TSPoint where
  date : TSVal
  value : ℚ
deriving DecidableEq, Repr

instance : Inhabited TSPoint := ⟨⟨Sum.inr 0, 0⟩⟩

/-- The synthetic timestamp for row `idx` of `len` rows:
`Date.now() - (data.length - index) * 86400000`. -/
def syntheticTS (now : ℤ) (len idx : ℕ) : ℤ := now - ((len : ℤ) - (idx : ℤ)) * 86400000

/-- `row.date || row.timestamp || synthetic`: first truthy wins. -/
def pickTS (r : Row) (syn : ℤ) : TSVal :=
  if truthy (getCell r "date") then Sum.inl ((getCell r "date").getD Cell.null)
  else if truthy (getCell r "timestamp") then Sum.inl ((getCell r "timestamp").getD Cell.null)
  else Sum.inr syn

/-- `new Date(x).getTime()` on a timestamp value; `dp` gives the
environment's millisecond parse of a date string. -/
def tsMs (dp : String → ℤ) : TSVal → ℤ
  | Sum.inl (Cell.str s) => dp s
  | Sum.inl (Cell.num q) => ⌊q⌋
  | Sum.inl Cell.null => 0
  | Sum.inl (Cell.boolean b) => if b then 1 else 0
  | Sum.inr ms => ms

/-- The shared series-building map of `detectAnomalies` and
`predictTimeSeries`:
`data.map((row, index) => ({date: row.date || row.timestamp || synthetic,
value: Number(row[metric]) || 0})).filter(v => !isNaN(v.value))`.
After `|| 0` the value is never NaN, so in the real-number model the
filter predicate is constantly true — the filter drops nothing. -/
def seriesPoints (data : List Row) (metric : String) (now : ℤ) : List TSPoint :=
  ((data.enum).map fun p =>
    ({ date := pickTS p.2 (syntheticTS now data.length p.1)
       value := numOr0 (getCell p.2 metric) } : TSPoint)).filter fun _ => true

/-- The sorted time series of `predictTimeSeries` (ascending by
`new Date(a.date).getTime()`; JS sort with a numeric comparator is
stable, i.e. insertion sort on the key's `≤`). -/
def buildTimeSeries (dp : String → ℤ) (data : List Row) (metric : String) (now : ℤ) :
    List TSPoint :=
  List.insertionSort (fun a b => tsMs dp a.date ≤ tsMs dp b.date)
    (seriesPoints data metric now)

/-- Severity tiers of `AnomalyResult`. -/
inductive Severity where
  | low : Severity
  | medium : Severity
  | high : Severity
deriving DecidableEq, Repr

/-- `AnomalyResult` of src/types. -/
structure AnomalyResult where
  timestamp : TSVal
  metric : String
  value : ℚ
  expected_value : ℚ
  deviation : ℚ
  is_anomaly : Bool
  severity : Severity
deriving DecidableEq, Repr

/-- `zScore > t` where `zScore = |v - mean| / Math.sqrt(variance)`.
All quantities are nonnegative, and square root is strictly monotone, so
for positive variance the comparison is equivalent to
`(v - mean)^2 > t^2 * variance`, which stays inside ℚ.  For variance 0
the source's zScore is `0/0 = NaN` (exact arithmetic forces `v = mean`
when the variance vanishes) and every NaN comparison is false. -/
def zGT (v mean variance t : ℚ) : Bool :=
  variance ≠ 0 ∧ (v - mean) ^ 2 > t ^ 2 * variance

/-- `detectAnomalies(data, metric)` of voiceService.ts.  `now` is the
`Date.now()` read used for synthetic timestamps.  `deviation` divides by
the mean; for mean 0 the source produces Infinity/NaN while total
rational division yields 0 — no claim exercises that corner. -/
def detectAnomalies (data : List Row) (metric : String) (now : ℤ) : List AnomalyResult :=
  let values := seriesPoints data metric now
  if values.length < 3 then []
  else
    let n : ℚ := values.length
    let mean := (values.map (·.value)).sum / n
    let variance := (values.map fun v => (v.value - mean) ^ 2).sum / n
    (values.map fun point =>
      ({ timestamp := point.date
         metric := metric
         value := point.value
         expected_value := mean
         deviation := round2 (((point.value - mean) / mean) * 100)
         is_anomaly := zGT point.value mean variance 2
         severity :=
           if zGT point.value mean variance 3 then Severity.high
           else if zGT point.value mean variance (5/2) then Severity.medium
           else Severity.low } : AnomalyResult)).filter (·.is_anomaly)

/-- `exponentialSmoothing(values, alpha)` tail:
`smoothed[i] = alpha * value[i] + (1 - alpha) * smoothed[i-1]`. -/
def expSmoothAux (alpha prev : ℚ) : List ℚ → List ℚ
  | [] => []
  | v :: rest =>
    let s := alpha * v + (1 - alpha) * prev
    s :: expSmoothAux alpha s rest

/-- `exponentialSmoothing(values, alpha)`; `smoothed[0] = values[0]`
(the empty case is unreachable: both callers guard on length ≥ 2). -/
def exponentialSmoothing (values : List ℚ) (alpha : ℚ) : List ℚ :=
  match values with
  | [] => []
  | v0 :: rest => v0 :: expSmoothAux alpha v0 rest

/-- Output of `linearRegression`. -/
structure RegrOut where
  slope : ℚ
  intercept : ℚ
deriving DecidableEq, Repr

/-- `linearRegression(x, y)`: ordinary least squares.  The denominator
vanishes only for degenerate x (never for the index sequences the
callers pass); total rational division then yields 0 where JS yields
NaN. -/
def linearRegression (x y : List ℚ) : RegrOut :=
  let n : ℚ := x.length
  let sumX := x.sum
  let sumY := y.sum
  let sumXY := ((x.zip y).map fun p => p.1 * p.2).sum
  let sumXX := (x.map fun xi => xi * xi).sum
  let slope := (n * sumXY - sumX * sumY) / (n * sumXX - sumX * sumX)
  let intercept := (sumY - slope * sumX) / n
  { slope := slope, intercept := intercept }

/-- A forecast entry.  `date` is the UTC day number printed by
`futureDate.toISOString().split('T')[0]` (day numbers inject into
`yyyy-mm-dd` strings). -/
structure Prediction where
  date : ℤ
  value : ℚ
  confidence_lower : ℚ
  confidence_upper : ℚ
deriving DecidableEq, Repr

/-- `PredictionResult` of src/types; `accuracy_score : none` models the
field being absent. -/
structure PredictionResult where
  metric : String
  predictions : List Prediction
  accuracy_score : Option ℚ
  model_type : String
deriving DecidableEq, Repr

/-- `predictTimeSeries(data, metric, periods)` of voiceService.ts.
`dp` models `new Date(string).getTime()`, `now` the `Date.now()` read.
`setDate(getDate() + i)` advances `i` calendar days, i.e.
`i * 86400000` ms in UTC. -/
def predictTimeSeries (dp : String → ℤ) (data : List Row) (metric : String)
    (periods : ℕ) (now : ℤ) : PredictionResult :=
  let timeSeriesData := buildTimeSeries dp data metric now
  if timeSeriesData.length < 2 then
    { metric := metric
      predictions := []
      accuracy_score := none
      model_type := "insufficient_data" }
  else
    let values := timeSeriesData.map (·.value)
    let indices := (List.range timeSeriesData.length).map fun i => (i : ℚ)
    let smoothed := exponentialSmoothing values (3/10)
    let reg := linearRegression indices smoothed
    let lastMs := tsMs dp (timeSeriesData.getLast?.getD default).date
    let residuals := ((smoothed.zip values).map fun p => |p.2 - p.1|)
    let mae := residuals.sum / residuals.length
    let confidenceInterval := mae * (196/100)
    let predictions := (List.range periods).map fun j =>
      let i : ℕ := j + 1
      let futureIndex : ℚ := (timeSeriesData.length : ℚ) + i
      let predictedValue := reg.slope * futureIndex + reg.intercept
      let trendAdjustment := reg.slope * i * (1/10)
      let adjustedValue := predictedValue + trendAdjustment
      ({ date := Int.fdiv (lastMs + i * 86400000) 86400000
         value := round2 (max 0 adjustedValue)
         confidence_lower := round2 (max 0 (adjustedValue - confidenceInterval))
         confidence_upper := round2 (adjustedValue + confidenceInterval) } : Prediction)
    let mse := (residuals.map fun r => r * r).sum / residuals.length
    let variance :=
      (values.map fun v => (v - values.sum / (values.length : ℚ)) ^ 2).sum / (values.length : ℚ)
    let r2 := 1 - mse / variance
    { metric := metric
      predictions := predictions
      accuracy_score := some (round3 (max 0 (min 1 r2)))
      model_type := "linear_regression_with_exponential_smoothing" }

/-- Trend classification of `detectTrend(values)`. -/
inductive Trend where
  | up : Trend
  | down : Trend
  | stable : Trend
deriving DecidableEq, Repr

/-- `detectTrend(values)`: OLS slope against index, compared with 1% of
the series average. -/
def detectTrend (values : List ℚ) : Trend :=
  if values.length < 2 then Trend.stable
  else
    let indices := (List.range values.length).map fun i => (i : ℚ)
    let reg := linearRegression indices values
    let avgValue := values.sum / values.length
    let relativeSlopeThreshold := avgValue * (1/100)
    if reg.slope > relativeSlopeThreshold then Trend.up
    else if reg.slope < -relativeSlopeThreshold then Trend.down
    else Trend.stable

/-- `\b\w` capitalisation of `calculateKPIs`' display name: underscores
become spaces, then every word-initial character is upper-cased. -/
def capWords (prevWord : Bool) : List Char → List Char
  | [] => []
  | c :: rest =>
    let w := isWordChar c
    (if w ∧ ¬ prevWord then c.toUpper else c) :: capWords w rest

/-- `column.replace(/_/g, ' ').replace(/\b\w/g, l => l.toUpperCase())`. -/
def prettifyName (s : String) : String :=
  String.mk (capWords false (s.toList.map fun c => if c = '_' then ' ' else c))

/-- A KPI entry. -/
structure KPI where
  id : String
  name : String
  value : ℚ
  change : ℚ
  trend : Trend
  unit : String
deriving DecidableEq, Repr

/-- `column.toLowerCase().includes(w)`. -/
def nameContains (s : String) (w : String) : Bool :=
  ciContains w.toList s.toList

/-- `calculateKPIs(data, columns)` of voiceService.ts.  Note this
function filters NaN without the `|| 0` collapse, so non-numeric cells
genuinely drop here, and it reads no clock. -/
def calculateKPIs (data : List Row) (columns : List String) : List KPI :=
  columns.filterMap fun column =>
    let values := numericValues data column
    if values.length = 0 then none
    else
      let currentValue := (values.getLast?).getD 0
      let previousValue :=
        if values.length > 1 then values.getD (values.length - 2) 0 else currentValue
      let change :=
        if previousValue ≠ 0 then ((currentValue - previousValue) / previousValue) * 100 else 0
      let trend := detectTrend (values.drop (values.length - 10))
      some
        { id := column
          name := prettifyName column
          value := round2 currentValue
          change := round2 change
          trend := trend
          unit := if nameContains column "revenue" ∨ nameContains column "sales" then "$" else "" }

/-! ## Helper lemmas -/

theorem enumFrom_map_snd (f : α → β) :
    ∀ (k : ℕ) (l : List α), (List.enumFrom k l).map (fun p => f p.2) = l.map f
  | _, [] => rfl
  | k, a :: l => by
    simp only [List.enumFrom, List.map_cons, List.cons.injEq, true_and]
    exact enumFrom_map_snd f (k + 1) l

theorem snd_mem_of_mem_enum {l : List α} {p : ℕ × α} (h : p ∈ l.enum) : p.2 ∈ l := by
  have h' := List.mem_enum_iff_getElem?.mp h
  exact List.getElem?_mem h'

theorem seriesPoints_length (data : List Row) (metric : String) (now : ℤ) :
    (seriesPoints data metric now).length = data.length := by
  simp [seriesPoints]

theorem seriesPoints_map_value (data : List Row) (metric : String) (now : ℤ) :
    (seriesPoints data metric now).map (·.value) = data.map (fun r => numOr0 (getCell r metric)) := by
  simp only [seriesPoints, List.filter_true, List.map_map, List.enum]
  exact enumFrom_map_snd (fun r => numOr0 (getCell r metric)) 0 data

theorem seriesPoints_value_of_mem {data : List Row} {metric : String} {now : ℤ} {p : TSPoint}
    (hp : p ∈ seriesPoints data metric now) :
    ∃ r ∈ data, p.value = numOr0 (getCell r metric) := by
  simp only [seriesPoints, List.filter_true, List.mem_map] at hp
  obtain ⟨q, hq, rfl⟩ := hp
  exact ⟨q.2, snd_mem_of_mem_enum hq, rfl⟩

theorem zGT_of_variance_zero (v mean t : ℚ) : zGT v mean 0 t = false := by
  simp [zGT]

theorem round2_nonneg {q : ℚ} (h : 0 ≤ q) : 0 ≤ round2 q := by
  unfold round2
  have h1 : (0 : ℤ) ≤ round (q * 100) := by
    rw [round_eq]
    exact Int.floor_nonneg.mpr (by linarith)
  have h2 : (0 : ℚ) ≤ (round (q * 100) : ℚ) := by exact_mod_cast h1
  exact div_nonneg h2 (by norm_num)

/-! ## Concrete inputs used by counterexamples and witnesses -/

/-- A date parse for environments where no user-supplied date string is
ever parsed (all rows below lack date fields, or the value is irrelevant). -/
def dp0 : String → ℤ := fun _ => 0

/-- A `Date.parse`-success oracle; irrelevant to the concrete inputs below. -/
def dk0 : String → Bool := fun _ => false

/-- The §8 scenario: a plan with both GROUP BY and SUM, over regions
{A:30, A:20, B:10}. -/
def groupPlanText : String := "SELECT region, SUM(sales) as total FROM data GROUP BY region LIMIT 20"

def groupPlanRows : List Row :=
  [[("region", Cell.str "A"), ("sales", Cell.num 30)],
   [("region", Cell.str "A"), ("sales", Cell.num 20)],
   [("region", Cell.str "B"), ("sales", Cell.num 10)]]

/-- Two rows made identical by imputation: the null `a` is filled with
the mean 5 of column `a`, the null `b` with the mode "p" of column `b`. -/
def mergeRows : List Row :=
  [[("a", Cell.null), ("b", Cell.str "p")],
   [("a", Cell.num 5), ("b", Cell.null)]]

/-- A two-row input whose metric cell is non-numeric in the first row. -/
def nonNumericRows : List Row := [[("v", Cell.str "abc")], [("v", Cell.str "10")]]

/-- A steeply decreasing two-point series: the 30-step forecast is far
below zero, so the unfloored confidence_upper goes negative. -/
def droppingRows : List Row := [[("v", Cell.num 10)], [("v", Cell.num 0)]]

/-- A duplicated row with a null cell: the missing-value count differs
between the cleaned (2 nulls) and the deduplicated (1 null) row sets. -/
def dupNullRows : List Row :=
  [[("a", Cell.null), ("b", Cell.str "x")],
   [("a", Cell.null), ("b", Cell.str "x")]]

/-- Nine 1s followed by a 100: the 100 has z-score exactly 3, so it is
flagged as an anomaly (z > 2), and the rows carry no date field. -/
def outlierRows : List Row :=
  List.replicate 9 [("v", Cell.num 1)] ++ [[("v", Cell.num 100)]]

/-- A numeric column holding 1.238 twice: the emitted mean rounds up to
1.24, strictly above the raw max 1.238. -/
def roundingRows : List Row :=
  [[("a", Cell.num (1238/1000))], [("a", Cell.num (1238/1000))]]

def roundingCols : List DataColumn :=
  [{ name := "a", type := ColType.number, nullable := false, unique_count := 1 }]

/-- Three rows with explicit date strings (used to witness clock
independence when dates are present). -/
def datedRows : List Row :=
  [[("date", Cell.str "2024-01-01"), ("v", Cell.num 1)],
   [("date", Cell.str "2024-01-02"), ("v", Cell.num 2)],
   [("date", Cell.str "2024-01-03"), ("v", Cell.num 3)]]

/-! ## Claims -/

unseal Rat.add Rat.mul Rat.inv Rat.sub in
/-- C1, counterexample: executing the GROUP-BY+SUM plan of the scenario
over rows {A:30, A:20, B:10} does NOT return the grouped result
[{region:"A",total:50},{region:"B",total:10}] that the claim states. -/
theorem c1_group_plan_not_grouped :
    executeQuery groupPlanText groupPlanRows ≠
      [[("region", Cell.str "A"), ("total", Cell.num 50)],
       [("region", Cell.str "B"), ("total", Cell.num 10)]] := by
  decide

unseal Rat.add Rat.mul Rat.inv Rat.sub in
/-- C1, amended: the `sum(` branch is checked before the `group by`
branch and its regex also matches, so the plan yields the single
ungrouped total row [{total_sales: 60}]. -/
theorem c1_group_plan_total_sum :
    executeQuery groupPlanText groupPlanRows = [[("total_sales", Cell.num 60)]] := by
  decide

unseal Rat.add Rat.mul Rat.inv Rat.sub in
/-- C3 (code bug), evaluated at the failing input: the row whose metric
cell is the non-numeric string "abc" is NOT dropped — it contributes the
value 0 to the time series (so 2 usable points instead of 1, and a full
regression result instead of the insufficient_data sentinel the claim,
and the dead `!isNaN` filter in the source, call for). -/
theorem c3_non_numeric_not_dropped :
    (buildTimeSeries dp0 nonNumericRows "v" 0).map (·.value) = [0, 10] ∧
    (predictTimeSeries dp0 nonNumericRows "v" 30 0).model_type =
      "linear_regression_with_exponential_smoothing" := by
  constructor
  · decide
  · decide

/-- C7: every element returned by detectAnomalies has is_anomaly = true;
non-anomalous points are filtered out before return. -/
theorem c7_only_anomalies (data : List Row) (metric : String) (now : ℤ)
    (r : AnomalyResult) (h : r ∈ detectAnomalies data metric now) :
    r.is_anomaly = true := by
  simp only [detectAnomalies] at h
  split at h
  · exact absurd h (List.not_mem_nil r)
  · exact (List.mem_filter.mp h).2

unseal Rat.add Rat.mul Rat.inv Rat.sub in
/-- C7 witness: the 100 among nine 1s is returned, and is flagged. -/
theorem c7_only_anomalies_witness :
    ({ timestamp := Sum.inr (-86400000), metric := "v", value := 100,
       expected_value := 109/10, deviation := 81743/100, is_anomaly := true,
       severity := Severity.medium } : AnomalyResult).is_anomaly = true :=
  c7_only_anomalies outlierRows "v" 0 _ (by decide)

/-- C8: with fewer than 2 points in the built time series (which, since
the NaN filter never drops a row, is fewer than 2 input rows),
predictTimeSeries returns the degenerate insufficient_data result with
no accuracy_score rather than raising. -/
theorem c8_insufficient_data (dp : String → ℤ) (data : List Row) (metric : String)
    (periods : ℕ) (now : ℤ) (h : (buildTimeSeries dp data metric now).length < 2) :
    predictTimeSeries dp data metric periods now =
      { metric := metric, predictions := [], accuracy_score := none,
        model_type := "insufficient_data" } := by
  simp only [predictTimeSeries]
  rw [if_pos h]

unseal Rat.add Rat.mul Rat.inv Rat.sub in
/-- C8 witness: a single-row input. -/
theorem c8_insufficient_data_witness :
    (buildTimeSeries dp0 [[("v", Cell.num 7)]] "v" 0).length < 2 ∧
    predictTimeSeries dp0 [[("v", Cell.num 7)]] "v" 30 0 =
      { metric := "v", predictions := [], accuracy_score := none,
        model_type := "insufficient_data" } :=
  ⟨by decide, c8_insufficient_data dp0 [[("v", Cell.num 7)]] "v" 30 0 (by decide)⟩

/-- C10: on a constant series of at least 3 points the variance is 0,
the z-score is the source's NaN (modelled: the comparison is false), so
detectAnomalies returns the empty list and no NaN/Infinity escapes. -/
theorem c10_constant_series_empty (data : List Row) (metric : String) (now : ℤ) (c : ℚ)
    (h3 : 3 ≤ data.length) (hc : ∀ r ∈ data, numOr0 (getCell r metric) = c) :
    detectAnomalies data metric now = [] := by
  have hmapv : (seriesPoints data metric now).map (·.value) =
      List.replicate data.length c := by
    rw [seriesPoints_map_value]
    refine List.eq_replicate_length.mpr ?_ |>.trans (by rw [List.length_map])
    intro b hb
    obtain ⟨r, hr, rfl⟩ := List.mem_map.mp hb
    exact hc r hr
  have hvalue : ∀ p ∈ seriesPoints data metric now, p.value = c := by
    intro p hp
    obtain ⟨r, hr, hv⟩ := seriesPoints_value_of_mem hp
    rw [hv]; exact hc r hr
  have hlen := seriesPoints_length data metric now
  have hn : ¬ ((seriesPoints data metric now).length < 3) := by omega
  have hnq : ((seriesPoints data metric now).length : ℚ) ≠ 0 := by
    have : 0 < (seriesPoints data metric now).length := by omega
    exact_mod_cast Nat.pos_iff_ne_zero.mp this
  simp only [detectAnomalies, hn, if_false]
  have hmean : ((seriesPoints data metric now).map (·.value)).sum /
      ((seriesPoints data metric now).length : ℚ) = c := by
    rw [hmapv, List.sum_replicate, hlen, nsmul_eq_mul]
    field_simp
  rw [hmean]
  have hvar : ((seriesPoints data metric now).map fun v => (v.value - c) ^ 2).sum /
      ((seriesPoints data metric now).length : ℚ) = 0 := by
    have : ((seriesPoints data metric now).map fun v => (v.value - c) ^ 2) =
        List.replicate (seriesPoints data metric now).length 0 := by
      refine List.eq_replicate_length.mpr ?_ |>.trans (by rw [List.length_map])
      intro b hb
      obtain ⟨p, hp, rfl⟩ := List.mem_map.mp hb
      rw [hvalue p hp]; ring
    rw [this, List.sum_replicate, smul_zero, zero_div]
  rw [hvar]
  apply List.filter_eq_nil_iff.mpr
  intro a ha
  obtain ⟨p, hp, rfl⟩ := List.mem_map.mp ha
  simp [zGT]

/-- C10 witness: three identical rows yield no anomalies. -/
theorem c10_constant_series_empty_witness :
    3 ≤ (List.replicate 3 ([("v", Cell.num 5)] : Row)).length ∧
    detectAnomalies (List.replicate 3 ([("v", Cell.num 5)] : Row)) "v" 0 = [] :=
  ⟨by decide, c10_constant_series_empty _ "v" 0 5 (by decide) (by decide)⟩

unseal Rat.add Rat.mul Rat.inv Rat.sub in
/-- C4, counterexample: on the steeply dropping series, prediction 30
(index 29) has confidence_upper = -88.14 < 0 — the code floors only
value and confidence_lower, not confidence_upper. -/
theorem c4_upper_can_be_negative :
    ((predictTimeSeries dp0 droppingRows "v" 30 0).predictions.getD 29
      { date := 0, value := 0, confidence_lower := 0, confidence_upper := 0 }).confidence_upper
      < 0 := by
  decide

/-- C4, amended: every prediction entry has value ≥ 0 and
confidence_lower ≥ 0 (each the 2-decimal rounding of a 0-floored
quantity); confidence_upper is not floored. -/
theorem c4_value_lower_nonneg (dp : String → ℤ) (data : List Row) (metric : String)
    (periods : ℕ) (now : ℤ) (p : Prediction)
    (hp : p ∈ (predictTimeSeries dp data metric periods now).predictions) :
    0 ≤ p.value ∧ 0 ≤ p.confidence_lower := by
  simp only [predictTimeSeries] at hp
  split at hp
  · simp at hp
  · simp only [List.mem_map] at hp
    obtain ⟨j, hj, rfl⟩ := hp
    exact ⟨round2_nonneg (le_max_left 0 _), round2_nonneg (le_max_left 0 _)⟩

unseal Rat.add Rat.mul Rat.inv Rat.sub in
/-- C4 witness: the first prediction of the dropping series (whose value
and lower bound are in fact clamped to 0). -/
theorem c4_value_lower_nonneg_witness :
    0 ≤ ((predictTimeSeries dp0 droppingRows "v" 30 0).predictions.getD 29
      { date := 0, value := 0, confidence_lower := 0, confidence_upper := 0 }).value ∧
    0 ≤ ((predictTimeSeries dp0 droppingRows "v" 30 0).predictions.getD 29
      { date := 0, value := 0, confidence_lower := 0, confidence_upper := 0 }).confidence_lower :=
  c4_value_lower_nonneg dp0 droppingRows "v" 30 0 _ (by decide)

unseal Rat.add Rat.mul Rat.inv Rat.sub in
/-- C6, counterexample: with no date/timestamp field on the rows,
detectAnomalies embeds the synthesized clock-dependent timestamp in its
output, so two calls one day apart differ. -/
theorem c6_output_depends_on_clock :
    detectAnomalies outlierRows "v" 0 ≠ detectAnomalies outlierRows "v" 86400000 := by
  decide

theorem pickTS_indep {r : Row}
    (h : truthy (getCell r "date") = true ∨ truthy (getCell r "timestamp") = true)
    (s1 s2 : ℤ) : pickTS r s1 = pickTS r s2 := by
  unfold pickTS
  rcases h with h | h
  · rw [h]; simp
  · by_cases hd : truthy (getCell r "date") <;> simp [hd, h]

theorem seriesPoints_indep (data : List Row) (metric : String)
    (h : ∀ r ∈ data, truthy (getCell r "date") = true ∨ truthy (getCell r "timestamp") = true)
    (now1 now2 : ℤ) :
    seriesPoints data metric now1 = seriesPoints data metric now2 := by
  unfold seriesPoints
  congr 1
  apply List.map_congr_left
  intro p hp
  have hr := snd_mem_of_mem_enum hp
  rw [pickTS_indep (h p.2 hr) (syntheticTS now1 data.length p.1)
    (syntheticTS now2 data.length p.1)]

/-- C6, amended: detectAnomalies and predictTimeSeries are deterministic
given identical rows, metric and clock reading; when every row carries a
truthy date or timestamp field the clock reading is irrelevant, so they
are deterministic across call times.  (calculateKPIs reads no clock at
all — its embedding has no `now` parameter.)  For rows lacking such a
field the output embeds the synthesized clock-dependent timestamps, as
the counterexample shows. -/
theorem c6_explicit_dates_deterministic (dp : String → ℤ) (data : List Row)
    (metric : String) (periods : ℕ) (now1 now2 : ℤ)
    (h : ∀ r ∈ data, truthy (getCell r "date") = true ∨ truthy (getCell r "timestamp") = true) :
    detectAnomalies data metric now1 = detectAnomalies data metric now2 ∧
    predictTimeSeries dp data metric periods now1 = predictTimeSeries dp data metric periods now2 := by
  have hs := seriesPoints_indep data metric h now1 now2
  constructor
  · unfold detectAnomalies; rw [hs]
  · unfold predictTimeSeries buildTimeSeries; rw [hs]

/-- C6 witness: three explicitly dated rows, clocks 0 and 999999999. -/
theorem c6_explicit_dates_deterministic_witness :
    detectAnomalies datedRows "v" 0 = detectAnomalies datedRows "v" 999999999 ∧
    predictTimeSeries dp0 datedRows "v" 5 0 = predictTimeSeries dp0 datedRows "v" 5 999999999 :=
  c6_explicit_dates_deterministic dp0 datedRows "v" 5 0 999999999 (by decide)

theorem foldl_min_le_init (xs : List ℚ) : ∀ x : ℚ, xs.foldl min x ≤ x := by
  induction xs with
  | nil => intro x; exact le_refl x
  | cons y ys ih =>
    intro x
    exact le_trans (ih (min x y)) (min_le_left x y)

theorem foldl_min_le_mem (xs : List ℚ) : ∀ (x a : ℚ), a ∈ xs → xs.foldl min x ≤ a := by
  induction xs with
  | nil => intro x a ha; exact absurd ha (List.not_mem_nil a)
  | cons y ys ih =>
    intro x a ha
    rcases List.mem_cons.mp ha with rfl | ha
    · exact le_trans (foldl_min_le_init ys (min x a)) (min_le_right x a)
    · exact ih (min x y) a ha

theorem listMin_le {l : List ℚ} {a : ℚ} (ha : a ∈ l) : listMin l ≤ a := by
  match l, ha with
  | x :: xs, ha =>
    rcases List.mem_cons.mp ha with rfl | ha
    · exact foldl_min_le_init xs a
    · exact foldl_min_le_mem xs x a ha

theorem init_le_foldl_max (xs : List ℚ) : ∀ x : ℚ, x ≤ xs.foldl max x := by
  induction xs with
  | nil => intro x; exact le_refl x
  | cons y ys ih =>
    intro x
    exact le_trans (le_max_left x y) (ih (max x y))

theorem mem_le_foldl_max (xs : List ℚ) : ∀ (x a : ℚ), a ∈ xs → a ≤ xs.foldl max x := by
  induction xs with
  | nil => intro x a ha; exact absurd ha (List.not_mem_nil a)
  | cons y ys ih =>
    intro x a ha
    rcases List.mem_cons.mp ha with rfl | ha
    · exact le_trans (le_max_right x a) (init_le_foldl_max ys (max x a))
    · exact ih (max x y) a ha

theorem le_listMax {l : List ℚ} {a : ℚ} (ha : a ∈ l) : a ≤ listMax l := by
  match l, ha with
  | x :: xs, ha =>
    rcases List.mem_cons.mp ha with rfl | ha
    · exact init_le_foldl_max xs a
    · exact mem_le_foldl_max xs x a ha

unseal Rat.add Rat.mul Rat.inv Rat.sub in
/-- C9, counterexample: on the column holding 1.238 twice the emitted
mean (the numeric content of the toFixed(2) string, 1.24) is strictly
above the emitted raw max 1.238, so the emitted statistics violate
`mean ≤ max`. -/
theorem c9_emitted_mean_exceeds_max :
    generateStatistics roundingRows roundingCols =
      [("a", { count := 2, mean := 31/25, median := 31/25, min := 619/500,
               max := 619/500, q1 := 619/500, q3 := 619/500 })] ∧
    (619 : ℚ)/500 < 31/25 := by
  constructor
  · decide
  · decide

/-- C9, amended: for every entry (name, s) that generateStatistics
emits, the column had at least one numeric value (all-non-numeric
columns are omitted), and with rawMedian = sorted[⌊n/2⌋] and
rawMean = sum/n taken before the 2-decimal rounding that the source
applies when emitting mean/median:
q1 ≤ rawMedian ≤ q3 and min ≤ rawMean ≤ max, while the emitted
s.mean/s.median are the roundings of those raw values (hence may exceed
the raw bounds by less than 0.005, as the counterexample shows). -/
theorem c9_quartile_mean_bounds (data : List Row) (columns : List DataColumn)
    (name : String) (s : Stats)
    (h : (name, s) ∈ generateStatistics data columns) :
    numericValues data name ≠ [] ∧
    (let values := numericValues data name
     let sorted := List.insertionSort (· ≤ ·) values
     let rawMedian := sorted.getD (sorted.length / 2) 0
     let rawMean := values.sum / (values.length : ℚ)
     s.q1 ≤ rawMedian ∧ rawMedian ≤ s.q3 ∧ s.min ≤ rawMean ∧ rawMean ≤ s.max ∧
     s.mean = round2 rawMean ∧ s.median = round2 rawMedian) := by
  simp only [generateStatistics, List.mem_filterMap] at h
  obtain ⟨col, hcol, hf⟩ := h
  split_ifs at hf with h1 h2
  · simp only [Option.some.injEq, Prod.mk.injEq] at hf
    obtain ⟨hname, hstats⟩ := hf
    subst hname
    subst hstats
    have hlen0 : 0 < (numericValues data col.name).length := h2
    have hsortlen : (List.insertionSort (· ≤ ·) (numericValues data col.name)).length =
        (numericValues data col.name).length :=
      List.length_insertionSort _ _
    have hsorted : List.Sorted (· ≤ ·) (List.insertionSort (· ≤ ·) (numericValues data col.name)) :=
      List.sorted_insertionSort _ _
    have hperm : List.Perm (List.insertionSort (· ≤ ·) (numericValues data col.name))
        (numericValues data col.name) :=
      List.perm_insertionSort _ _
    refine ⟨List.ne_nil_of_length_pos hlen0, ?_⟩
    set values := numericValues data col.name with hv
    set sorted := List.insertionSort (· ≤ ·) values with hsrt
    have hq13 : sorted.length / 4 ≤ sorted.length / 2 ∧
        sorted.length / 2 ≤ 3 * sorted.length / 4 ∧
        3 * sorted.length / 4 < sorted.length := by
      rw [hsortlen]; omega
    have hi1 : sorted.length / 4 < sorted.length := by omega
    have hi2 : sorted.length / 2 < sorted.length := by omega
    have hi3 : 3 * sorted.length / 4 < sorted.length := by omega
    have hget1 := List.getD_eq_get sorted 0 hi1
    have hget2 := List.getD_eq_get sorted 0 hi2
    have hget3 := List.getD_eq_get sorted 0 hi3
    have hq1med : sorted.getD (sorted.length / 4) 0 ≤ sorted.getD (sorted.length / 2) 0 := by
      rw [hget1, hget2]
      exact hsorted.rel_get_of_le (by exact hq13.1)
    have hmedq3 : sorted.getD (sorted.length / 2) 0 ≤ sorted.getD (3 * sorted.length / 4) 0 := by
      rw [hget2, hget3]
      exact hsorted.rel_get_of_le (by exact hq13.2.1)
    have hnq : ((values.length : ℚ)) ≠ 0 := by
      exact_mod_cast Nat.pos_iff_ne_zero.mp hlen0
    have hnpos : (0 : ℚ) < (values.length : ℚ) := by exact_mod_cast hlen0
    have hminmean : listMin values ≤ values.sum / (values.length : ℚ) := by
      rw [le_div_iff hnpos]
      have := List.card_nsmul_le_sum values (listMin values) (fun x hx => listMin_le hx)
      rwa [nsmul_eq_mul, mul_comm] at this
    have hmeanmax : values.sum / (values.length : ℚ) ≤ listMax values := by
      rw [div_le_iff hnpos]
      have := List.sum_le_card_nsmul values (listMax values) (fun x hx => le_listMax hx)
      rwa [nsmul_eq_mul, mul_comm] at this
    exact ⟨hq1med, hmedq3, hminmean, hmeanmax, rfl, rfl⟩

/-- The statistics entry emitted for the rounding counterexample column. -/
def roundingStats : Stats :=
  { count := 2, mean := 31/25, median := 31/25, min := 619/500,
    max := 619/500, q1 := 619/500, q3 := 619/500 }

unseal Rat.add Rat.mul Rat.inv Rat.sub in
/-- C9 witness: a concrete emitted entry satisfies the amended bounds. -/
theorem c9_quartile_mean_bounds_witness :
    numericValues roundingRows "a" ≠ [] ∧
    (let values := numericValues roundingRows "a"
     let sorted := List.insertionSort (· ≤ ·) values
     let rawMedian := sorted.getD (sorted.length / 2) 0
     let rawMean := values.sum / (values.length : ℚ)
     roundingStats.q1 ≤ rawMedian ∧ rawMedian ≤ roundingStats.q3 ∧
     roundingStats.min ≤ rawMean ∧ rawMean ≤ roundingStats.max ∧
     roundingStats.mean = round2 rawMean ∧ roundingStats.median = round2 rawMedian) :=
  c9_quartile_mean_bounds roundingRows roundingCols "a" roundingStats (by decide)

theorem mem_dedupGo_or [DecidableEq α] {a : α} :
    ∀ (l seen : List α), a ∈ l → a ∈ dedupGo seen l ∨ a ∈ seen
  | [], _, ha => absurd ha (List.not_mem_nil a)
  | b :: rest, seen, ha => by
    unfold dedupGo
    by_cases hb : b ∈ seen
    · rw [if_pos hb]
      rcases List.mem_cons.mp ha with rfl | ha
      · exact Or.inr hb
      · exact mem_dedupGo_or rest seen ha
    · rw [if_neg hb]
      rcases List.mem_cons.mp ha with rfl | ha
      · exact Or.inl (List.mem_cons_self a _)
      · rcases mem_dedupGo_or rest (b :: seen) ha with h | h
        · exact Or.inl (List.mem_cons_of_mem b h)
        · rcases List.mem_cons.mp h with rfl | h
          · exact Or.inl (List.mem_cons_self a _)
          · exact Or.inr h

theorem dedupGo_sub [DecidableEq α] {a : α} :
    ∀ {l seen : List α}, a ∈ dedupGo seen l → a ∈ l
  | [], _, ha => absurd ha (List.not_mem_nil a)
  | b :: rest, seen, ha => by
    unfold dedupGo at ha
    by_cases hb : b ∈ seen
    · rw [if_pos hb] at ha
      exact List.mem_cons_of_mem b (dedupGo_sub ha)
    · rw [if_neg hb] at ha
      rcases List.mem_cons.mp ha with rfl | ha
      · exact List.mem_cons_self a rest
      · exact List.mem_cons_of_mem b (dedupGo_sub ha)

theorem dedupGo_nodup_notin [DecidableEq α] :
    ∀ (l seen : List α), (dedupGo seen l).Nodup ∧ ∀ x ∈ dedupGo seen l, x ∉ seen
  | [], seen => ⟨List.nodup_nil, fun x hx => absurd hx (List.not_mem_nil x)⟩
  | b :: rest, seen => by
    unfold dedupGo
    by_cases hb : b ∈ seen
    · rw [if_pos hb]
      exact dedupGo_nodup_notin rest seen
    · rw [if_neg hb]
      obtain ⟨hnd, hnin⟩ := dedupGo_nodup_notin rest (b :: seen)
      refine ⟨List.nodup_cons.mpr ⟨fun hbmem => ?_, hnd⟩, ?_⟩
      · exact (hnin b hbmem) (List.mem_cons_self b seen)
      · intro x hx
        rcases List.mem_cons.mp hx with rfl | hx
        · exact hb
        · exact fun hxs => (hnin x hx) (List.mem_cons_of_mem b hxs)

theorem dedupGo_eq_of_nodup [DecidableEq α] :
    ∀ (l seen : List α), l.Nodup → (∀ x ∈ l, x ∉ seen) → dedupGo seen l = l
  | [], _, _, _ => rfl
  | b :: rest, seen, hnd, hnin => by
    unfold dedupGo
    rw [if_neg (hnin b (List.mem_cons_self b rest))]
    congr 1
    apply dedupGo_eq_of_nodup rest (b :: seen) (List.nodup_cons.mp hnd).2
    intro x hx
    intro hmem
    rcases List.mem_cons.mp hmem with rfl | hxs
    · exact (List.nodup_cons.mp hnd).1 hx
    · exact hnin x (List.mem_cons_of_mem b hx) hxs

theorem removeDuplicates_nodup (l : List Row) : (removeDuplicates l).Nodup :=
  (dedupGo_nodup_notin l []).1

theorem removeDuplicates_self_of_nodup {l : List Row} (h : l.Nodup) :
    removeDuplicates l = l :=
  dedupGo_eq_of_nodup l [] h (fun x _ => List.not_mem_nil x)

theorem mem_removeDuplicates_of_mem {l : List Row} {a : Row} (h : a ∈ l) :
    a ∈ removeDuplicates l :=
  (mem_dedupGo_or l [] h).resolve_right (List.not_mem_nil a)

theorem mem_of_mem_removeDuplicates {l : List Row} {a : Row}
    (h : a ∈ removeDuplicates l) : a ∈ l :=
  dedupGo_sub h

theorem cleanData_id {l : List Row}
    (h : ∀ r ∈ l, ∀ kv ∈ r, kv.2 ≠ Cell.null ∧ kv.2 ≠ Cell.str "") :
    cleanData l = l := by
  unfold cleanData
  refine (List.map_congr_left ?_).trans (List.map_id l)
  intro r hr
  refine (List.map_congr_left ?_).trans (List.map_id r)
  intro kv hkv
  rw [if_neg (not_or.mpr (h r hr kv hkv))]
  rfl

theorem getCell_mem {r : Row} {k : String} {v : Cell} (h : getCell r k = some v) :
    ∃ kv ∈ r, kv.2 = v := by
  unfold getCell at h
  simp only [Option.map_eq_some'] at h
  obtain ⟨p, hp, rfl⟩ := h
  exact ⟨p, List.mem_of_find?_eq_some hp, rfl⟩

theorem fillColumn_id {rows : List Row} {col : DataColumn}
    (h : ∀ r ∈ rows, getCell r col.name ≠ some Cell.null ∧ getCell r col.name ≠ none) :
    fillColumn rows col = rows := by
  have hmap : ∀ (c : Cell),
      (rows.map fun row =>
        if getCell row col.name = some Cell.null ∨ getCell row col.name = none then
          setCell row col.name c
        else row) = rows := by
    intro c
    refine (List.map_congr_left ?_).trans (List.map_id rows)
    intro r hr
    rw [if_neg (not_or.mpr ⟨(h r hr).1, (h r hr).2⟩)]
    rfl
  simp only [fillColumn]
  split_ifs
  any_goals rfl
  all_goals exact hmap _

theorem fillMissingValues_id :
    ∀ (cols : List DataColumn) (rows : List Row),
    (∀ col ∈ cols, ∀ r ∈ rows,
      getCell r col.name ≠ some Cell.null ∧ getCell r col.name ≠ none) →
    fillMissingValues rows cols = rows
  | [], _, _ => rfl
  | col :: cols, rows, h => by
    unfold fillMissingValues at *
    simp only [List.foldl_cons]
    rw [fillColumn_id (h col (List.mem_cons_self col cols))]
    exact fillMissingValues_id cols rows
      (fun c hc r hr => h c (List.mem_cons_of_mem col hc) r hr)

/-- `processDataset` on the empty input is `none` (models the throw). -/
theorem processDataset_eq_none_of_empty (dateOk : String → Bool) (raw : List Row)
    (h : raw.length = 0) : processDataset dateOk raw = none := by
  simp only [processDataset]
  rw [if_pos h]

/-- The shape of a successful `processDataset` run. -/
theorem processDataset_some (dateOk : String → Bool) (raw : List Row)
    (h : raw.length ≠ 0) :
    processDataset dateOk raw = some
      { columns := mkColumns dateOk (removeDuplicates (cleanData raw))
        rows := fillMissingValues (removeDuplicates (cleanData raw))
          (mkColumns dateOk (removeDuplicates (cleanData raw)))
        summary :=
          { total_rows := (fillMissingValues (removeDuplicates (cleanData raw))
              (mkColumns dateOk (removeDuplicates (cleanData raw)))).length
            total_columns := (mkColumns dateOk (removeDuplicates (cleanData raw))).length
            missing_values := mkMissingValues (mkColumns dateOk (removeDuplicates (cleanData raw)))
              (cleanData raw)
            duplicates := raw.length - (removeDuplicates (cleanData raw)).length } } := by
  simp only [processDataset]
  rw [if_neg h]

theorem mem_mkColumns_name {dateOk : String → Bool} {unique : List Row} {col : DataColumn}
    (h : col ∈ mkColumns dateOk unique) :
    col.name ∈ (unique.head?.getD []).map (·.1) := by
  unfold mkColumns at h
  obtain ⟨name, hn, rfl⟩ := List.mem_map.mp h
  exact hn

theorem mem_mkMissingValues {cols : List DataColumn} {cleaned : List Row}
    {name : String} {k : ℕ} :
    (name, k) ∈ mkMissingValues cols cleaned ↔
      (∃ col ∈ cols, col.name = name) ∧ k = countNullsIn cleaned name ∧ 0 < k := by
  unfold mkMissingValues
  simp only [List.mem_filterMap]
  constructor
  · rintro ⟨col, hcol, hf⟩
    split_ifs at hf with hpos
    · simp only [Option.some.injEq, Prod.mk.injEq] at hf
      obtain ⟨h1, h2⟩ := hf
      subst h1
      subst h2
      exact ⟨⟨col, hcol, rfl⟩, rfl, hpos⟩
  · rintro ⟨⟨col, hcol, hname⟩, hk, hpos⟩
    subst hname
    subst hk
    exact ⟨col, hcol, by rw [if_pos hpos]⟩

/-! ## C2 and C5 -/

unseal Rat.add Rat.mul Rat.inv Rat.sub in
/-- C2, counterexample: on `mergeRows` (a row with null `a`, a row with
null `b`) imputation fills both rows to the identical row
{a:5, b:"p"}, so the second cleaning pass reports 1 duplicate, not 0. -/
theorem c2_second_pass_duplicate :
    ((processDataset dk0 mergeRows).bind fun d => processDataset dk0 d.rows).map
      (fun d => d.summary.duplicates) = some 1 := by
  decide

/-- C2, amended: the pipeline is idempotent in the claimed sense for
inputs whose rows are complete — no cell is null or the empty string and
every row has a cell for every key of the first row (so imputation does
nothing).  In general imputation can merge previously distinct rows, and
the second pass then reports a positive duplicate count, as the
counterexample shows. -/
theorem c2_idempotent_on_complete_rows (dateOk : String → Bool) (r0 : Row) (rest : List Row)
    (hclean : ∀ r ∈ r0 :: rest, ∀ kv ∈ r, kv.2 ≠ Cell.null ∧ kv.2 ≠ Cell.str "")
    (hkeys : ∀ r ∈ r0 :: rest, ∀ kv ∈ r0, (getCell r kv.1).isSome = true) :
    ((processDataset dateOk (r0 :: rest)).bind fun d => processDataset dateOk d.rows).map
      (fun d => d.summary.duplicates) = some 0 := by
  have hcl : cleanData (r0 :: rest) = r0 :: rest := cleanData_id hclean
  have hlen : (r0 :: rest).length ≠ 0 := by simp
  have hu0 : removeDuplicates (r0 :: rest) = r0 :: dedupGo [r0] rest := by
    simp [removeDuplicates, dedupGo]
  have hUsub : ∀ r ∈ removeDuplicates (r0 :: rest), r ∈ r0 :: rest :=
    fun r hr => mem_of_mem_removeDuplicates hr
  have hUnodup : (removeDuplicates (r0 :: rest)).Nodup := removeDuplicates_nodup _
  have hfill : fillMissingValues (removeDuplicates (r0 :: rest))
      (mkColumns dateOk (removeDuplicates (r0 :: rest))) = removeDuplicates (r0 :: rest) := by
    apply fillMissingValues_id
    intro col hcol r hr
    have hkey : col.name ∈ r0.map (·.1) := by
      have := mem_mkColumns_name hcol
      rwa [hu0] at this
    obtain ⟨kv, hkv, hkname⟩ := List.mem_map.mp hkey
    have hsome := hkeys r (hUsub r hr) kv hkv
    constructor
    · intro hnull
      obtain ⟨kv2, hkv2, hv2⟩ := getCell_mem hnull
      exact (hclean r (hUsub r hr) kv2 hkv2).1 hv2
    · intro hnone
      rw [hkname] at hsome
      rw [hnone] at hsome
      exact Bool.false_ne_true hsome
  rw [processDataset_some dateOk (r0 :: rest) hlen]
  rw [hcl, hfill]
  show (processDataset dateOk (removeDuplicates (r0 :: rest))).map
    (fun d => d.summary.duplicates) = some 0
  have hUne : (removeDuplicates (r0 :: rest)).length ≠ 0 := by
    rw [hu0]; simp
  rw [processDataset_some dateOk (removeDuplicates (r0 :: rest)) hUne]
  have hclU : cleanData (removeDuplicates (r0 :: rest)) = removeDuplicates (r0 :: rest) :=
    cleanData_id (fun r hr kv hkv => hclean r (hUsub r hr) kv hkv)
  simp only [Option.map_some', Option.some.injEq]
  rw [hclU, removeDuplicates_self_of_nodup hUnodup]
  exact Nat.sub_self _

unseal Rat.add Rat.mul Rat.inv Rat.sub in
/-- C2 witness: two complete single-column rows. -/
theorem c2_idempotent_on_complete_rows_witness :
    ((processDataset dk0 [[("a", Cell.num 1)], [("a", Cell.num 2)]]).bind fun d =>
      processDataset dk0 d.rows).map (fun d => d.summary.duplicates) = some 0 :=
  c2_idempotent_on_complete_rows dk0 [("a", Cell.num 1)] [[("a", Cell.num 2)]]
    (by decide) (by decide)

unseal Rat.add Rat.mul Rat.inv Rat.sub in
/-- C5, counterexample: on the duplicated null row the emitted
missing_values entry for column `a` is 2 (counted over the cleaned,
pre-dedup rows), while the deduplicated row set has only 1 null there —
the claim's count over the deduplicated set is wrong. -/
theorem c5_counts_are_pre_dedup :
    (processDataset dk0 dupNullRows).map (fun d => d.summary.missing_values) =
      some [("a", 2)] ∧
    countNullsIn (removeDuplicates (cleanData dupNullRows)) "a" = 1 := by
  constructor
  · decide
  · decide

/-- C5, amended: an entry (name, k) exists in missing_values iff name is
a column with k > 0 nulls counted over the CLEANED (null-normalised but
not deduplicated) rows; and any such entry still implies at least one
null in that column of the deduplicated row set (so the
entries-only-for-nullable-columns half of the claim survives). -/
theorem c5_missing_values_pre_dedup (dateOk : String → Bool) (raw : List Row)
    (d : ProcessedData) (hd : processDataset dateOk raw = some d)
    (name : String) (k : ℕ) :
    ((name, k) ∈ d.summary.missing_values ↔
      ((∃ col ∈ d.columns, col.name = name) ∧
        k = countNullsIn (cleanData raw) name ∧ 0 < k)) ∧
    ((name, k) ∈ d.summary.missing_values →
      ∃ r ∈ removeDuplicates (cleanData raw),
        getCell r name = some Cell.null ∨ getCell r name = none) := by
  by_cases hlen : raw.length = 0
  · rw [processDataset_eq_none_of_empty dateOk raw hlen] at hd
    exact absurd hd (by simp)
  · rw [processDataset_some dateOk raw hlen] at hd
    simp only [Option.some.injEq] at hd
    subst hd
    constructor
    · exact mem_mkMissingValues
    · intro hm
      obtain ⟨-, hk, hpos⟩ := mem_mkMissingValues.mp hm
      subst hk
      unfold countNullsIn at hpos
      obtain ⟨r, hrf⟩ := List.exists_mem_of_ne_nil _ (List.ne_nil_of_length_pos hpos)
      obtain ⟨hrmem, hrp⟩ := List.mem_filter.mp hrf
      exact ⟨r, mem_removeDuplicates_of_mem hrmem, of_decide_eq_true hrp⟩

/-- The dataset actually produced for `dupNullRows` (the getD default is
never taken: the input is non-empty). -/
def dupNullProcessed : ProcessedData :=
  (processDataset dk0 dupNullRows).getD
    { columns := [], rows := []
      summary := { total_rows := 0, total_columns := 0, missing_values := [], duplicates := 0 } }

unseal Rat.add Rat.mul Rat.inv Rat.sub in
/-- C5 witness: the concrete entry ("a", 2) of the duplicated-null input. -/
theorem c5_missing_values_pre_dedup_witness :
    ((("a", 2) ∈ dupNullProcessed.summary.missing_values ↔
      ((∃ col ∈ dupNullProcessed.columns, col.name = "a") ∧
        2 = countNullsIn (cleanData dupNullRows) "a" ∧ 0 < 2)) ∧
     (("a", 2) ∈ dupNullProcessed.summary.missing_values →
      ∃ r ∈ removeDuplicates (cleanData dupNullRows),
        getCell r "a" = some Cell.null ∨ getCell r "a" = none)) :=
  c5_missing_values_pre_dedup dk0 dupNullRows dupNullProcessed (by decide) "a" 2

end BizGPT
